import Mathlib

/-!
Verification development for the SAP UI5 product-management sample app
(`webapp/` of the repository): a master-detail CRUD demo over an in-memory
JSON array of products.  The controllers are shallowly embedded: every
handler becomes a pure function from its inputs (form data, dialog action,
route parameter, current products array) to an outcome record holding the
new products array and the UI effects (message box, toast, navigation).

Modelling conventions:
* JS numbers holding money are exact two-decimal values in the seed data,
  so `Price` is an integer number of cents; `Rating` likewise is tenths.
* JS string falsiness (`!s`) is `s = ""`; number falsiness (`!n`) is `n = 0`.
* `parseInt(s, 10)` is `parseIntJS`; `Number.prototype.toString` on an
  integer-valued number is `intToString`.
* A JS object used as a string-to-string map (`Specifications`) is a list
  of key/value pairs.
-/

/-- The character for a decimal digit `d`, i.e. `Char.ofNat (d + 48)`. -/
def digitChar (d : Nat) : Char := Char.ofNat (d + 48)

/-- Fuel-driven accumulator version of decimal printing, structural so that
it evaluates by `decide`/`rfl`. -/
def natToDigitsAux : Nat → Nat → List Char → List Char
  | 0, _, acc => acc
  | fuel + 1, n, acc =>
    if n < 10 then digitChar (n % 10) :: acc
    else natToDigitsAux fuel (n / 10) (digitChar (n % 10) :: acc)

/-- Recursive (well-founded) decimal printing, convenient for proofs. -/
def natToDigits (n : Nat) : List Char :=
  if h : n < 10 then [digitChar n]
  else natToDigits (n / 10) ++ [digitChar (n % 10)]
decreasing_by exact Nat.div_lt_self (by omega) (by omega)

/-- Decimal representation of a natural number, as produced by
`Number.prototype.toString` on a nonnegative integer-valued JS number. -/
def natRepr (n : Nat) : String := ⟨natToDigitsAux (n + 1) n []⟩

/-- Decimal representation of an integer-valued JS number
(`Number.prototype.toString`). -/
def intToString (i : Int) : String :=
  if i < 0 then "-" ++ natRepr i.natAbs else natRepr i.natAbs

/-- Value of a list of decimal digit characters, most significant first. -/
def charsToNat (cs : List Char) : Nat :=
  cs.foldl (fun a c => a * 10 + (c.toNat - 48)) 0

/-- Embedding of JavaScript `parseInt(s, 10)`: skip leading whitespace,
read an optional sign, then the longest prefix of decimal digits; `none`
models the `NaN` result when no digit is found. -/
def parseIntJS (s : String) : Option Int :=
  match s.data.dropWhile Char.isWhitespace with
  | [] => none
  | c :: rest =>
    if c = '-' then
      let ds := rest.takeWhile Char.isDigit
      if ds = [] then none else some (-(charsToNat ds : Int))
    else if c = '+' then
      let ds := rest.takeWhile Char.isDigit
      if ds = [] then none else some (charsToNat ds : Int)
    else
      let ds := (c :: rest).takeWhile Char.isDigit
      if ds = [] then none else some (charsToNat ds : Int)

/-- A product record, as held in the in-memory `products` JSON array
(`webapp/model/products.json`, bound in `Component.js`).  `Price` is in
cents and `Rating` in tenths (the JSON holds exact two-decimal /
one-decimal values). -/
structure Product where
  ProductID : String
  Name : String
  Description : String
  Price : Int
  Currency : String
  Category : String
  SupplierName : String
  InStock : Bool
  Quantity : Int
  Rating : Int
  ReleaseDate : String
  Specifications : List (String × String)
deriving Repr, DecidableEq

/-- A navigation performed by a handler: one of the app's router targets
(`oRouter.navTo`) or a browser-history step back (`window.history.go(-1)`). -/
inductive Nav where
  | master : Nav
  | detail (productId : String) : Nav
  | edit (productId : String) : Nav
  | create : Nav
  | historyBack : Nav
deriving Repr, DecidableEq

/-- Outcome of a save/delete handler: the products array afterwards and the
UI effects raised (blocking `MessageBox.error`, `MessageToast`, navigation). -/
structure SaveOutcome where
  products : List Product
  errorBox : Option String
  toast : Option String
  nav : Option Nav
deriving Repr, DecidableEq

/-- The list of `ProductID` values of a products array. -/
def productIds (aProducts : List Product) : List String :=
  aProducts.map Product.ProductID

/-- Conversion of the specifications table rows to the object stored on the
product: rows whose key and value are both truthy are kept
(`aSpecs.forEach(...)` in both save handlers). -/
def specsToObject (aSpecs : List (String × String)) : List (String × String) :=
  aSpecs.filter (fun spec => decide (spec.1 ≠ "" ∧ spec.2 ≠ ""))

namespace Create

/-- The `aProducts.forEach` loop of `_generateProductId` in
`Create.controller.js`: the largest `parseInt(product.ProductID, 10)` seen
that beats the running maximum, starting from `0` (a `NaN` parse never
beats it). -/
def _maxExistingId (aProducts : List Product) : Int :=
  aProducts.foldl
    (fun iMaxId product =>
      match parseIntJS product.ProductID with
      | some iId => if iId > iMaxId then iId else iMaxId
      | none => iMaxId)
    0

/-- Function `_generateProductId` of `Create.controller.js`: the next ID as a string. -/
def _generateProductId (aProducts : List Product) : String :=
  intToString (_maxExistingId aProducts + 1)

/-- Handler `onSavePress` of `Create.controller.js`.  `oProduct` is the form data
(the view's `products` model), `aSpecs` the specifications table rows,
`aProducts` the component's products array. -/
def onSavePress (oProduct : Product) (aSpecs : List (String × String))
    (aProducts : List Product) : SaveOutcome :=
  if oProduct.Name = "" ∨ oProduct.Price = 0 then
    { products := aProducts
      errorBox := some "Please fill in all required fields"
      toast := none
      nav := none }
  else
    let oProduct2 := { oProduct with
      Specifications := specsToObject aSpecs
      ProductID := _generateProductId aProducts }
    { products := aProducts ++ [oProduct2]
      errorBox := none
      toast := some "Product created successfully"
      nav := some Nav.master }

end Create

/-- The linear scan `for (var i = 0; ...) if (aProducts[i].ProductID === sProductId)`
shared by the Detail, Edit and Delete handlers: the first matching index and
record, if any. -/
def findFirstById : List Product → String → Option (Nat × Product)
  | [], _ => none
  | p :: rest, sProductId =>
    if p.ProductID = sProductId then some (0, p)
    else (findFirstById rest sProductId).map (fun r => (r.1 + 1, r.2))

/-- The action with which a `sap.m.MessageBox.confirm` dialog is closed. -/
inductive MessageBoxAction where
  | OK : MessageBoxAction
  | CANCEL : MessageBoxAction
deriving Repr, DecidableEq

namespace Detail

/-- Outcome of a route-matched handler: the product bound to the view (if
found), the products array afterwards, and the UI effects. -/
structure MatchOutcome where
  boundProduct : Option Product
  products : List Product
  toast : Option String
  nav : Option Nav
deriving Repr, DecidableEq

/-- The navigation performed by `onNavBack` of `Detail.controller.js`:
browser history when there is a previous hash, else the master route. -/
def onNavBackNav (hasPreviousHash : Bool) : Nav :=
  if hasPreviousHash then Nav.historyBack else Nav.master

/-- Handler `_onProductMatched` of `Detail.controller.js`: bind the first product
with the routed ID, or toast "Product not found" and navigate back. -/
def _onProductMatched (sProductId : String) (aProducts : List Product)
    (hasPreviousHash : Bool) : MatchOutcome :=
  match findFirstById aProducts sProductId with
  | some r =>
    { boundProduct := some r.2, products := aProducts, toast := none, nav := none }
  | none =>
    { boundProduct := none, products := aProducts
      toast := some "Product not found"
      nav := some (onNavBackNav hasPreviousHash) }

/-- The `splice`-by-linear-scan of the confirmed delete: remove the first
record whose `ProductID` matches, leave everything else alone. -/
def removeFirstById : List Product → String → List Product
  | [], _ => []
  | p :: rest, sProductId =>
    if p.ProductID = sProductId then rest
    else p :: removeFirstById rest sProductId

/-- Handler `onDeletePress` of `Detail.controller.js`, resolved at the close of its
`MessageBox.confirm` dialog: only the OK action mutates the array. -/
def onDeletePress (oAction : MessageBoxAction) (sProductId : String)
    (aProducts : List Product) : SaveOutcome :=
  if oAction = MessageBoxAction.OK then
    { products := removeFirstById aProducts sProductId
      errorBox := none
      toast := some "Product deleted successfully"
      nav := some Nav.master }
  else
    { products := aProducts, errorBox := none, toast := none, nav := none }

end Detail

namespace Edit

/-- Outcome of `_onEditMatched`: the stored `this.productIndex`, the copy of
the product loaded into the edit form model, the products array, and the UI
effects. -/
structure MatchOutcome where
  productIndex : Option Nat
  editModel : Option Product
  products : List Product
  toast : Option String
  nav : Option Nav
deriving Repr, DecidableEq

/-- The navigation performed by `onNavBack` of the Edit controller: browser
history when there is a previous hash, else the detail route for the ID
currently held by the view's `products` model. -/
def onNavBackNav (hasPreviousHash : Bool) (sViewModelId : String) : Nav :=
  if hasPreviousHash then Nav.historyBack else Nav.detail sViewModelId

/-- Handler `_onEditMatched` of the Edit controller: find the routed product, store
its index and load a deep copy into the form model, or toast
"Product not found" and navigate back.  `sViewModelId` is the `ProductID`
the view's `products` model happens to hold when the lookup fails (the
not-found branch reads it inside `onNavBack`). -/
def _onEditMatched (sProductId : String) (aProducts : List Product)
    (hasPreviousHash : Bool) (sViewModelId : String) : MatchOutcome :=
  match findFirstById aProducts sProductId with
  | some r =>
    { productIndex := some r.1, editModel := some r.2
      products := aProducts, toast := none, nav := none }
  | none =>
    { productIndex := none, editModel := none, products := aProducts
      toast := some "Product not found"
      nav := some (onNavBackNav hasPreviousHash sViewModelId) }

/-- Handler `onSavePress` of the Edit controller.  `oProduct` is the form data,
`aSpecs` the specifications table rows, `productIndex` the stored
`this.productIndex` (`none` models `undefined`), `aProducts` the component's
products array.  (`List.set` out of range is a no-op; the stored index is
always in range in the edit flow.) -/
def onSavePress (oProduct : Product) (aSpecs : List (String × String))
    (productIndex : Option Nat) (aProducts : List Product) : SaveOutcome :=
  if oProduct.Name = "" ∨ oProduct.Price = 0 then
    { products := aProducts
      errorBox := some "Please fill in all required fields"
      toast := none
      nav := none }
  else
    let oProduct2 := { oProduct with Specifications := specsToObject aSpecs }
    match productIndex with
    | some i =>
      { products := aProducts.set i oProduct2
        errorBox := none
        toast := some "Product updated successfully"
        nav := some (Nav.detail oProduct2.ProductID) }
    | none =>
      { products := aProducts
        errorBox := some "Error updating product"
        toast := none
        nav := none }

end Edit

namespace Master

/-- Modelled from the spec: the `sap.ui.model.Filter(..., FilterOperator.Contains, sQuery)`
objects built in `onSearch` are applied by the UI5 list binding, which is
framework code outside this repository; per the spec ("linear substring
filter over three fields (OR-combined)") a Contains filter keeps the records
whose field has the query as a substring. -/
def containsQuery (sValue sQuery : String) : Bool :=
  decide (List.IsInfix sQuery.data sValue.data)

/-- The OR-combination of the three Contains filters of `onSearch` in
`Master.controller.js` (`and: false`). -/
def matchesFilters (sQuery : String) (product : Product) : Bool :=
  containsQuery product.Name sQuery || containsQuery product.Description sQuery
    || containsQuery product.Category sQuery

/-- Handler `onSearch` of `Master.controller.js`, as the set of list items left by
the binding: a truthy (non-empty) query applies the OR-combined filters, a
falsy one clears them. -/
def onSearch (sQuery : String) (aProducts : List Product) : List Product :=
  if sQuery ≠ "" then aProducts.filter (matchesFilters sQuery)
  else aProducts

end Master

/-- Formatter `formatPrice` of `model/formatter.js`: the empty string for a falsy
price, else the price fixed to two decimals (`parseFloat(price).toFixed(2)`;
with prices in cents, `toFixed(2)` renders sign, integer part, a dot and the
zero-padded two-digit fraction). -/
def formatPrice (price : Int) (currency : String) : String :=
  if price = 0 then ""
  else
    (if price < 0 then "-" else "")
      ++ natRepr (price.natAbs / 100) ++ "."
      ++ (if price.natAbs % 100 < 10 then "0" ++ natRepr (price.natAbs % 100)
          else natRepr (price.natAbs % 100))

/-- Formatter `formatStockStatus` of `model/formatter.js`. -/
def formatStockStatus (inStock : Bool) : String :=
  if inStock then "In Stock" else "Out of Stock"

/-- Formatter `formatStockStatusState` of `model/formatter.js`. -/
def formatStockStatusState (inStock : Bool) : String :=
  if inStock then "Success" else "Error"

/-- Stated from the spec's words for comparison with `Create._maxExistingId`:
"the current maximum numeric ID in the array" — the maximum of the integer
parses of the `ProductID` values (`0` when none parses). -/
def specMaxNumericId (aProducts : List Product) : Int :=
  match aProducts.filterMap (fun p => parseIntJS p.ProductID) with
  | [] => 0
  | x :: xs => xs.foldl max x

/-- Sample record used to evaluate the theorems on concrete inputs. -/
def sampleProduct1 : Product :=
  { ProductID := "7", Name := "Laptop", Description := "Portable computer"
    Price := 99999, Currency := "USD", Category := "Electronics"
    SupplierName := "Acme", InStock := true, Quantity := 12, Rating := 45
    ReleaseDate := "2024-01-15", Specifications := [("RAM", "16GB")] }

/-- Second sample record, distinct `ProductID`. -/
def sampleProduct2 : Product :=
  { ProductID := "3", Name := "Mouse", Description := "Wireless mouse"
    Price := 2599, Currency := "USD", Category := "Electronics"
    SupplierName := "Acme", InStock := false, Quantity := 0, Rating := 38
    ReleaseDate := "2023-10-02", Specifications := [] }

/-- A record whose `ProductID` parses to a negative integer. -/
def negIdProduct : Product :=
  { ProductID := "-5", Name := "Legacy", Description := "Imported row"
    Price := 100, Currency := "USD", Category := "Misc"
    SupplierName := "Acme", InStock := true, Quantity := 1, Rating := 10
    ReleaseDate := "2020-01-01", Specifications := [] }

/-- Sample form data for the Create/Edit save handlers. -/
def sampleForm : Product :=
  { ProductID := "", Name := "Widget", Description := "A widget"
    Price := 999, Currency := "USD", Category := "Tools"
    SupplierName := "Bolt Inc", InStock := true, Quantity := 4, Rating := 40
    ReleaseDate := "2024-06-01", Specifications := [] }

theorem natToDigitsAux_eq (fuel n : Nat) (acc : List Char) (h : n < fuel) :
    natToDigitsAux fuel n acc = natToDigits n ++ acc := by
  induction fuel generalizing n acc with
  | zero => omega
  | succ fuel ih =>
    rw [natToDigitsAux]
    by_cases h10 : n < 10
    · rw [if_pos h10, natToDigits, dif_pos h10, Nat.mod_eq_of_lt h10]
      simp
    · have hdiv : n / 10 < n := Nat.div_lt_self (by omega) (by omega)
      rw [if_neg h10, ih (n / 10) _ (by omega)]
      conv_rhs => rw [natToDigits]
      rw [dif_neg h10]
      simp

theorem natRepr_data (n : Nat) : (natRepr n).data = natToDigits n := by
  show natToDigitsAux (n + 1) n [] = natToDigits n
  rw [natToDigitsAux_eq (n + 1) n [] (by omega)]
  simp

theorem digitChar_isDigit {d : Nat} (h : d < 10) : (digitChar d).isDigit = true := by
  interval_cases d <;> decide

theorem digitChar_toNat {d : Nat} (h : d < 10) : (digitChar d).toNat = d + 48 := by
  interval_cases d <;> decide

theorem isDigit_not_isWhitespace {c : Char} (h : c.isDigit = true) :
    c.isWhitespace = false := by
  by_contra hw
  rw [Bool.not_eq_false] at hw
  simp only [Char.isWhitespace, Bool.or_eq_true, decide_eq_true_eq] at hw
  rcases hw with ((he | he) | he) | he <;> rw [he] at h <;> exact absurd h (by decide)

theorem natToDigits_ne_nil (n : Nat) : natToDigits n ≠ [] := by
  rw [natToDigits]
  by_cases h : n < 10
  · rw [dif_pos h]; simp
  · rw [dif_neg h]; simp

theorem natToDigits_all_digits (n : Nat) :
    ∀ c ∈ natToDigits n, c.isDigit = true := by
  induction n using Nat.strong_induction_on with
  | _ n ih =>
    rw [natToDigits]
    by_cases h : n < 10
    · rw [dif_pos h]
      intro c hc
      simp only [List.mem_singleton] at hc
      exact hc ▸ digitChar_isDigit h
    · rw [dif_neg h]
      intro c hc
      rcases List.mem_append.mp hc with h1 | h1
      · exact ih (n / 10) (Nat.div_lt_self (by omega) (by omega)) c h1
      · simp only [List.mem_singleton] at h1
        exact h1 ▸ digitChar_isDigit (Nat.mod_lt n (by omega))

theorem charsToNat_append_singleton (cs : List Char) (c : Char) :
    charsToNat (cs ++ [c]) = charsToNat cs * 10 + (c.toNat - 48) := by
  unfold charsToNat
  rw [List.foldl_append]
  rfl

theorem charsToNat_natToDigits (n : Nat) : charsToNat (natToDigits n) = n := by
  induction n using Nat.strong_induction_on with
  | _ n ih =>
    rw [natToDigits]
    by_cases h : n < 10
    · rw [dif_pos h]
      show 0 * 10 + ((digitChar n).toNat - 48) = n
      rw [digitChar_toNat h]
      omega
    · rw [dif_neg h, charsToNat_append_singleton,
        ih (n / 10) (Nat.div_lt_self (by omega) (by omega)),
        digitChar_toNat (Nat.mod_lt n (by omega))]
      omega

theorem takeWhile_all (p : Char → Bool) :
    ∀ cs : List Char, (∀ c ∈ cs, p c = true) → cs.takeWhile p = cs := by
  intro cs
  induction cs with
  | nil => intro _; rfl
  | cons c t ih =>
    intro h
    rw [List.takeWhile_cons, h c (by simp), ih (fun x hx => h x (by simp [hx]))]
    simp

/-- Parsing inverts printing on nonnegative integers: `parseIntJS` applied to
the decimal representation of `n` yields `n`. -/
theorem parseIntJS_natRepr (n : Nat) : parseIntJS (natRepr n) = some (n : Int) := by
  unfold parseIntJS
  rw [natRepr_data]
  have hdig := natToDigits_all_digits n
  have hdrop : (natToDigits n).dropWhile Char.isWhitespace = natToDigits n := by
    cases hds : natToDigits n with
    | nil => rfl
    | cons c t =>
      rw [List.dropWhile_cons,
        isDigit_not_isWhitespace (hdig c (by rw [hds]; simp))]
      simp
  rw [hdrop]
  cases hds : natToDigits n with
  | nil => exact absurd hds (natToDigits_ne_nil n)
  | cons c t =>
    have hc : c.isDigit = true := hdig c (by rw [hds]; simp)
    have hcm : c ≠ '-' := by
      intro he; rw [he] at hc; exact absurd hc (by decide)
    have hcp : c ≠ '+' := by
      intro he; rw [he] at hc; exact absurd hc (by decide)
    simp only [if_neg hcm, if_neg hcp]
    have htake : (c :: t).takeWhile Char.isDigit = c :: t :=
      takeWhile_all _ _ (fun x hx => hdig x (by rw [hds]; exact hx))
    rw [htake, if_neg (by simp), ← hds, charsToNat_natToDigits]

theorem foldl_max_step_eq (l : List Product) :
    ∀ a : Int,
      l.foldl
        (fun iMaxId product =>
          match parseIntJS product.ProductID with
          | some iId => if iId > iMaxId then iId else iMaxId
          | none => iMaxId) a
      = (l.filterMap (fun p => parseIntJS p.ProductID)).foldl max a := by
  induction l with
  | nil => intro a; rfl
  | cons p t ih =>
    intro a
    cases hp : parseIntJS p.ProductID with
    | none =>
      simp only [List.foldl_cons, List.filterMap_cons, hp]
      exact ih a
    | some v =>
      simp only [List.foldl_cons, List.filterMap_cons, hp]
      have hstep : (if v > a then v else a) = max a v := by
        rcases le_or_lt v a with h1 | h1
        · rw [if_neg (not_lt.mpr h1), max_eq_left h1]
        · rw [if_pos h1, max_eq_right (le_of_lt h1)]
      rw [hstep]
      exact ih (max a v)

theorem _maxExistingId_eq_foldl (l : List Product) :
    Create._maxExistingId l
      = (l.filterMap (fun p => parseIntJS p.ProductID)).foldl max 0 :=
  foldl_max_step_eq l 0

theorem foldl_max_init_le (l : List Int) : ∀ a : Int, a ≤ l.foldl max a := by
  induction l with
  | nil => intro a; exact le_refl a
  | cons x t ih =>
    intro a
    exact le_trans (le_max_left a x) (ih (max a x))

theorem foldl_max_mem_le (l : List Int) :
    ∀ (a x : Int), x ∈ l → x ≤ l.foldl max a := by
  induction l with
  | nil => intro a x hx; exact absurd hx (List.not_mem_nil x)
  | cons y t ih =>
    intro a x hx
    rcases List.mem_cons.mp hx with h1 | h1
    · subst h1
      exact le_trans (le_max_right a x) (foldl_max_init_le t (max a x))
    · exact ih (max a y) x h1

theorem foldl_max_pull (l : List Int) :
    ∀ a b : Int, l.foldl max (max a b) = max a (l.foldl max b) := by
  induction l with
  | nil => intro a b; rfl
  | cons c t ih =>
    intro a b
    rw [List.foldl_cons, List.foldl_cons, max_assoc, ih a (max b c)]

theorem _maxExistingId_nonneg (l : List Product) : 0 ≤ Create._maxExistingId l := by
  rw [_maxExistingId_eq_foldl]
  exact foldl_max_init_le _ 0

theorem _maxExistingId_ge_parse (l : List Product) (p : Product) (v : Int)
    (hp : p ∈ l) (hv : parseIntJS p.ProductID = some v) :
    v ≤ Create._maxExistingId l := by
  rw [_maxExistingId_eq_foldl]
  exact foldl_max_mem_le _ 0 v (List.mem_filterMap.mpr ⟨p, hp, hv⟩)

theorem _maxExistingId_eq_spec (l : List Product) :
    Create._maxExistingId l = max 0 (specMaxNumericId l) := by
  rw [_maxExistingId_eq_foldl]
  unfold specMaxNumericId
  cases hfm : l.filterMap (fun p => parseIntJS p.ProductID) with
  | nil => rfl
  | cons x xs =>
    rw [List.foldl_cons]
    exact foldl_max_pull xs 0 x

/-- The freshly generated ID is not among the existing `ProductID` values. -/
theorem _generateProductId_fresh (l : List Product) :
    Create._generateProductId l ∉ productIds l := by
  intro hmem
  rcases List.mem_map.mp hmem with ⟨p, hp, hpid⟩
  have hm : 0 ≤ Create._maxExistingId l := _maxExistingId_nonneg l
  have hrepr : Create._generateProductId l
      = natRepr (Create._maxExistingId l + 1).natAbs := by
    unfold Create._generateProductId intToString
    rw [if_neg (by omega)]
  have hparse : parseIntJS p.ProductID = some (Create._maxExistingId l + 1) := by
    rw [hpid, hrepr, parseIntJS_natRepr]
    congr 1
    omega
  have := _maxExistingId_ge_parse l p _ hp hparse
  omega

theorem findFirstById_eq_none_iff (l : List Product) (sId : String) :
    findFirstById l sId = none ↔ ∀ p ∈ l, p.ProductID ≠ sId := by
  induction l with
  | nil => simp [findFirstById]
  | cons q t ih =>
    by_cases hq : q.ProductID = sId
    · constructor
      · intro h
        rw [findFirstById, if_pos hq] at h
        exact absurd h (by simp)
      · intro h
        exact absurd hq (h q (List.mem_cons_self q t))
    · rw [findFirstById, if_neg hq]
      constructor
      · intro h p hp
        have hnone : findFirstById t sId = none := by
          cases hf : findFirstById t sId with
          | none => rfl
          | some r => rw [hf] at h; exact absurd h (by simp)
        rcases List.mem_cons.mp hp with h1 | h1
        · rw [h1]; exact hq
        · exact (ih.mp hnone) p h1
      · intro h
        rw [ih.mpr (fun p hp => h p (List.mem_cons_of_mem q hp))]
        rfl

theorem findFirstById_eq_some (l : List Product) (sId : String) (i : Nat)
    (p : Product) (h : findFirstById l sId = some (i, p)) :
    ∃ hi : i < l.length,
      l.get ⟨i, hi⟩ = p ∧ p.ProductID = sId
        ∧ ∀ j (hj : j < i), (l.get ⟨j, Nat.lt_trans hj hi⟩).ProductID ≠ sId := by
  induction l generalizing i with
  | nil => exact absurd h (by simp [findFirstById])
  | cons q t ih =>
    by_cases hq : q.ProductID = sId
    · rw [findFirstById, if_pos hq] at h
      have h2 : ((0 : Nat), q) = (i, p) := Option.some.inj h
      have hi0 : 0 = i := congrArg Prod.fst h2
      have hqp : q = p := congrArg Prod.snd h2
      subst hi0; subst hqp
      exact ⟨Nat.succ_pos _, rfl, hq, fun j hj => absurd hj (Nat.not_lt_zero j)⟩
    · rw [findFirstById, if_neg hq] at h
      cases hf : findFirstById t sId with
      | none => rw [hf] at h; exact absurd h (by simp)
      | some r =>
        rw [hf] at h
        have h2 : (r.1 + 1, r.2) = (i, p) := Option.some.inj h
        have hi1 : r.1 + 1 = i := congrArg Prod.fst h2
        have hrp : r.2 = p := congrArg Prod.snd h2
        subst hi1; subst hrp
        rcases ih r.1 hf with ⟨hlt, hget, hpid, hfirst⟩
        refine ⟨Nat.succ_lt_succ hlt, hget, hpid, ?_⟩
        intro j hj
        cases j with
        | zero => exact hq
        | succ j0 =>
          exact hfirst j0 (Nat.lt_of_succ_lt_succ hj)

theorem findFirstById_mem (l : List Product) (sId : String)
    (h : sId ∈ productIds l) : ∃ r, findFirstById l sId = some r := by
  cases hf : findFirstById l sId with
  | some r => exact ⟨r, rfl⟩
  | none =>
    rcases List.mem_map.mp h with ⟨p, hp, hpid⟩
    exact absurd hpid ((findFirstById_eq_none_iff l sId).mp hf p hp)

theorem removeFirstById_sublist (l : List Product) (sId : String) :
    List.Sublist (Detail.removeFirstById l sId) l := by
  induction l with
  | nil => exact List.Sublist.refl []
  | cons p t ih =>
    by_cases hp : p.ProductID = sId
    · rw [Detail.removeFirstById, if_pos hp]
      exact List.sublist_cons_self p t
    · rw [Detail.removeFirstById, if_neg hp]
      exact List.Sublist.cons₂ p ih

theorem removeFirstById_spec (l : List Product) (sId : String)
    (h : sId ∈ productIds l) :
    ∃ i, ∃ hi : i < l.length,
      (l.get ⟨i, hi⟩).ProductID = sId
        ∧ (∀ j (hj : j < i), (l.get ⟨j, Nat.lt_trans hj hi⟩).ProductID ≠ sId)
        ∧ Detail.removeFirstById l sId = l.take i ++ l.drop (i + 1) := by
  induction l with
  | nil => exact absurd h (List.not_mem_nil sId)
  | cons p t ih =>
    by_cases hp : p.ProductID = sId
    · refine ⟨0, Nat.succ_pos _, hp, fun j hj => absurd hj (Nat.not_lt_zero j), ?_⟩
      rw [Detail.removeFirstById, if_pos hp]
      rfl
    · have hmem : sId ∈ productIds t := by
        rcases List.mem_cons.mp h with h1 | h1
        · exact absurd h1.symm hp
        · exact h1
      rcases ih hmem with ⟨i, hi, hget, hfirst, heq⟩
      refine ⟨i + 1, Nat.succ_lt_succ hi, hget, ?_, ?_⟩
      · intro j hj
        cases j with
        | zero => exact hp
        | succ j0 => exact hfirst j0 (Nat.lt_of_succ_lt_succ hj)
      · rw [Detail.removeFirstById, if_neg hp, heq]
        rfl

theorem removeFirstById_no_id (l : List Product) (sId : String)
    (hnd : (productIds l).Nodup) :
    ∀ p ∈ Detail.removeFirstById l sId, p.ProductID ≠ sId := by
  induction l with
  | nil => intro p hp; exact absurd hp (List.not_mem_nil p)
  | cons q t ih =>
    have hnd2 : (productIds t).Nodup := (List.nodup_cons.mp hnd).2
    by_cases hq : q.ProductID = sId
    · rw [Detail.removeFirstById, if_pos hq]
      intro p hp hpid
      have : q.ProductID ∈ productIds t :=
        hq ▸ hpid ▸ List.mem_map.mpr ⟨p, hp, rfl⟩
      exact (List.nodup_cons.mp hnd).1 this
    · rw [Detail.removeFirstById, if_neg hq]
      intro p hp
      rcases List.mem_cons.mp hp with h1 | h1
      · rw [h1]; exact hq
      · exact ih hnd2 p h1

theorem set_getElem?_self {α : Type} (l : List α) (i : Nat) (a : α)
    (h : l[i]? = some a) : l.set i a = l := by
  induction l generalizing i with
  | nil => simp at h
  | cons x t ih =>
    cases i with
    | zero =>
      simp only [List.getElem?_cons_zero] at h
      rw [← Option.some.inj h]
      rfl
    | succ i0 =>
      simp only [List.getElem?_cons_succ] at h
      show x :: t.set i0 a = x :: t
      rw [ih i0 h]

/-- C8: the Delete flow is gated by the single confirm dialog: for every
close action other than OK the products array is exactly unchanged, no
toast is shown and no navigation to the master view occurs (so the array is
never modified unless the dialog is closed with OK). -/
theorem delete_gated_by_confirm
    (oAction : MessageBoxAction) (sProductId : String) (aProducts : List Product)
    (h : oAction ≠ MessageBoxAction.OK) :
    (Detail.onDeletePress oAction sProductId aProducts).products = aProducts
      ∧ (Detail.onDeletePress oAction sProductId aProducts).nav = none
      ∧ (Detail.onDeletePress oAction sProductId aProducts).toast = none := by
  rw [Detail.onDeletePress, if_neg h]
  exact ⟨rfl, rfl, rfl⟩

/-- Witness for `delete_gated_by_confirm` at a concrete cancelled dialog. -/
theorem delete_gated_by_confirm_witness :
    (Detail.onDeletePress MessageBoxAction.CANCEL "7" [sampleProduct1]).products
        = [sampleProduct1]
      ∧ (Detail.onDeletePress MessageBoxAction.CANCEL "7" [sampleProduct1]).nav = none
      ∧ (Detail.onDeletePress MessageBoxAction.CANCEL "7" [sampleProduct1]).toast = none :=
  delete_gated_by_confirm MessageBoxAction.CANCEL "7" [sampleProduct1] (by decide)

/-- C5: when no record carries the requested `ProductID`, the Detail and
Edit route-matched lookups find nothing, bind no product, toast
"Product not found" and fall back to `onNavBack`, and the products array is
not modified. -/
theorem record_not_found_toast_and_navback
    (sProductId : String) (aProducts : List Product)
    (hasPreviousHash : Bool) (sViewModelId : String)
    (h : ∀ p ∈ aProducts, p.ProductID ≠ sProductId) :
    findFirstById aProducts sProductId = none
      ∧ (Detail._onProductMatched sProductId aProducts hasPreviousHash).boundProduct = none
      ∧ (Detail._onProductMatched sProductId aProducts hasPreviousHash).toast
          = some "Product not found"
      ∧ (Detail._onProductMatched sProductId aProducts hasPreviousHash).nav
          = some (Detail.onNavBackNav hasPreviousHash)
      ∧ (Detail._onProductMatched sProductId aProducts hasPreviousHash).products = aProducts
      ∧ (Edit._onEditMatched sProductId aProducts hasPreviousHash sViewModelId).productIndex
          = none
      ∧ (Edit._onEditMatched sProductId aProducts hasPreviousHash sViewModelId).editModel
          = none
      ∧ (Edit._onEditMatched sProductId aProducts hasPreviousHash sViewModelId).toast
          = some "Product not found"
      ∧ (Edit._onEditMatched sProductId aProducts hasPreviousHash sViewModelId).nav
          = some (Edit.onNavBackNav hasPreviousHash sViewModelId)
      ∧ (Edit._onEditMatched sProductId aProducts hasPreviousHash sViewModelId).products
          = aProducts := by
  have hfind : findFirstById aProducts sProductId = none :=
    (findFirstById_eq_none_iff aProducts sProductId).mpr h
  refine ⟨hfind, ?_⟩
  rw [Detail._onProductMatched, Edit._onEditMatched, hfind]
  exact ⟨rfl, rfl, rfl, rfl, rfl, rfl, rfl, rfl, rfl⟩

/-- Witness for `record_not_found_toast_and_navback`: ID "99" is absent from
the sample array. -/
theorem record_not_found_toast_and_navback_witness :
    (∀ p ∈ [sampleProduct1, sampleProduct2], p.ProductID ≠ "99")
      ∧ (Detail._onProductMatched "99" [sampleProduct1, sampleProduct2] false).toast
          = some "Product not found"
      ∧ (Edit._onEditMatched "99" [sampleProduct1, sampleProduct2] false "7").nav
          = some (Edit.onNavBackNav false "7") :=
  ⟨by decide,
   (record_not_found_toast_and_navback "99" [sampleProduct1, sampleProduct2]
      false "7" (by decide)).2.2.1,
   (record_not_found_toast_and_navback "99" [sampleProduct1, sampleProduct2]
      false "7" (by decide)).2.2.2.2.2.2.2.2.1⟩

/-- C6: a non-empty search query keeps exactly the products whose `Name`,
`Description` or `Category` has the query as a substring (the three Contains
filters OR-combined); an empty query clears the filter so every product is
shown. -/
theorem search_filters_by_substring_or (sQuery : String) (aProducts : List Product) :
    (sQuery ≠ "" →
      ∀ p : Product, p ∈ Master.onSearch sQuery aProducts ↔
        p ∈ aProducts
          ∧ (List.IsInfix sQuery.data p.Name.data
              ∨ List.IsInfix sQuery.data p.Description.data
              ∨ List.IsInfix sQuery.data p.Category.data))
      ∧ Master.onSearch "" aProducts = aProducts := by
  constructor
  · intro hq p
    rw [Master.onSearch, if_pos hq, List.mem_filter]
    simp [Master.matchesFilters, Master.containsQuery, or_assoc]
  · rw [Master.onSearch, if_neg (by simp)]

/-- Witness for `search_filters_by_substring_or` on a concrete query and
array. -/
theorem search_filters_by_substring_or_witness :
    (∀ p : Product, p ∈ Master.onSearch "Lap" [sampleProduct1, sampleProduct2] ↔
        p ∈ [sampleProduct1, sampleProduct2]
          ∧ (List.IsInfix "Lap".data p.Name.data
              ∨ List.IsInfix "Lap".data p.Description.data
              ∨ List.IsInfix "Lap".data p.Category.data))
      ∧ Master.onSearch "" [sampleProduct1, sampleProduct2]
          = [sampleProduct1, sampleProduct2] :=
  ⟨(search_filters_by_substring_or "Lap" [sampleProduct1, sampleProduct2]).1
      (by decide),
   (search_filters_by_substring_or "X" [sampleProduct1, sampleProduct2]).2⟩

/-- C4: a missing required field (falsy `Name` or falsy `Price`) makes both
save handlers raise the blocking error box and return with the products
array unchanged; when no required field is missing, no error box is raised
and the save proceeds (Create appends one record, Edit with its stored index
replaces the indexed element). -/
theorem required_field_validation_blocks_save
    (oProduct : Product) (aSpecs : List (String × String))
    (aProducts : List Product) (i : Nat) :
    ((oProduct.Name = "" ∨ oProduct.Price = 0) →
      (Create.onSavePress oProduct aSpecs aProducts).errorBox
          = some "Please fill in all required fields"
        ∧ (Create.onSavePress oProduct aSpecs aProducts).products = aProducts
        ∧ (Edit.onSavePress oProduct aSpecs (some i) aProducts).errorBox
            = some "Please fill in all required fields"
        ∧ (Edit.onSavePress oProduct aSpecs (some i) aProducts).products = aProducts)
      ∧ (¬(oProduct.Name = "" ∨ oProduct.Price = 0) →
        (Create.onSavePress oProduct aSpecs aProducts).errorBox = none
          ∧ (Create.onSavePress oProduct aSpecs aProducts).products.length
              = aProducts.length + 1
          ∧ (Edit.onSavePress oProduct aSpecs (some i) aProducts).errorBox = none
          ∧ (Edit.onSavePress oProduct aSpecs (some i) aProducts).products
              = aProducts.set i
                  { oProduct with Specifications := specsToObject aSpecs }) := by
  constructor
  · intro hmiss
    rw [Create.onSavePress, if_pos hmiss, Edit.onSavePress, if_pos hmiss]
    exact ⟨rfl, rfl, rfl, rfl⟩
  · intro hok
    rw [Create.onSavePress, if_neg hok, Edit.onSavePress, if_neg hok]
    refine ⟨rfl, ?_, rfl, rfl⟩
    simp

/-- Witness for `required_field_validation_blocks_save`: a form missing its
name is blocked, the sample form is saved. -/
theorem required_field_validation_blocks_save_witness :
    (Create.onSavePress { sampleForm with Name := "" } [] [sampleProduct1]).products
        = [sampleProduct1]
      ∧ (Edit.onSavePress { sampleForm with Name := "" } [] (some 0)
            [sampleProduct1]).errorBox = some "Please fill in all required fields"
      ∧ (Create.onSavePress sampleForm [] [sampleProduct1]).errorBox = none
      ∧ (Edit.onSavePress sampleForm [] (some 0) [sampleProduct1]).products
          = [sampleProduct1].set 0 { sampleForm with Specifications := specsToObject [] } :=
  ⟨((required_field_validation_blocks_save { sampleForm with Name := "" } []
      [sampleProduct1] 0).1 (Or.inl rfl)).2.1,
   ((required_field_validation_blocks_save { sampleForm with Name := "" } []
      [sampleProduct1] 0).1 (Or.inl rfl)).2.2.1,
   ((required_field_validation_blocks_save sampleForm [] [sampleProduct1] 0).2
      (by decide)).1,
   ((required_field_validation_blocks_save sampleForm [] [sampleProduct1] 0).2
      (by decide)).2.2.2⟩

/-- C2: the confirmed Delete flow removes exactly the first record whose
`ProductID` equals the given ID: the length drops by one, under unique IDs
no record with that ID remains, and the rest of the array is unchanged and
in its original relative order. -/
theorem delete_removes_exactly_first_match
    (sProductId : String) (aProducts : List Product)
    (h : sProductId ∈ productIds aProducts) :
    (Detail.onDeletePress MessageBoxAction.OK sProductId aProducts).products.length
        = aProducts.length - 1
      ∧ ((productIds aProducts).Nodup →
          ∀ p ∈ (Detail.onDeletePress MessageBoxAction.OK sProductId aProducts).products,
            p.ProductID ≠ sProductId)
      ∧ ∃ i, ∃ hi : i < aProducts.length,
          (aProducts.get ⟨i, hi⟩).ProductID = sProductId
            ∧ (∀ j (hj : j < i),
                (aProducts.get ⟨j, Nat.lt_trans hj hi⟩).ProductID ≠ sProductId)
            ∧ (Detail.onDeletePress MessageBoxAction.OK sProductId aProducts).products
                = aProducts.take i ++ aProducts.drop (i + 1) := by
  have hprod : (Detail.onDeletePress MessageBoxAction.OK sProductId aProducts).products
      = Detail.removeFirstById aProducts sProductId := by
    rw [Detail.onDeletePress, if_pos rfl]
  rcases removeFirstById_spec aProducts sProductId h with ⟨i, hi, hget, hfirst, heq⟩
  refine ⟨?_, ?_, i, hi, hget, hfirst, by rw [hprod, heq]⟩
  · rw [hprod, heq]
    simp only [List.length_append, List.length_take, List.length_drop]
    omega
  · intro hnd
    rw [hprod]
    exact removeFirstById_no_id aProducts sProductId hnd

/-- Witness for `delete_removes_exactly_first_match` deleting ID "3" from
the sample array. -/
theorem delete_removes_exactly_first_match_witness :
    ("3" ∈ productIds [sampleProduct1, sampleProduct2])
      ∧ (Detail.onDeletePress MessageBoxAction.OK "3"
          [sampleProduct1, sampleProduct2]).products.length
          = [sampleProduct1, sampleProduct2].length - 1 :=
  ⟨by decide,
   (delete_removes_exactly_first_match "3" [sampleProduct1, sampleProduct2]
      (by decide)).1⟩

theorem natRepr_length_lt10 (n : Nat) (h : n < 10) : (natRepr n).length = 1 := by
  show (natRepr n).data.length = 1
  rw [natRepr_data, natToDigits, dif_pos h]
  rfl

theorem natRepr_length_lt100 (n : Nat) (h1 : 10 ≤ n) (h2 : n < 100) :
    (natRepr n).length = 2 := by
  show (natRepr n).data.length = 2
  rw [natRepr_data, natToDigits, dif_neg (by omega)]
  have hq : n / 10 < 10 := by omega
  rw [natToDigits, dif_pos hq]
  rfl

theorem natRepr_all_digits (n : Nat) : ∀ c ∈ (natRepr n).data, c.isDigit = true := by
  rw [natRepr_data]
  exact natToDigits_all_digits n

/-- C7: in the Edit flow on an array containing the routed `ProductID`, the
matched handler stores the index of the first record with that ID, and a
valid save replaces exactly the element at that index with the edited
record: the length is unchanged and every element at any other index is
unchanged. -/
theorem edit_save_replaces_element_at_index
    (sProductId : String) (aProducts : List Product)
    (hasPreviousHash : Bool) (sViewModelId : String)
    (oProduct : Product) (aSpecs : List (String × String))
    (hmem : sProductId ∈ productIds aProducts)
    (hname : oProduct.Name ≠ "") (hprice : oProduct.Price ≠ 0) :
    ∃ i, ∃ hi : i < aProducts.length,
      (Edit._onEditMatched sProductId aProducts hasPreviousHash
          sViewModelId).productIndex = some i
        ∧ (aProducts.get ⟨i, hi⟩).ProductID = sProductId
        ∧ (∀ j (hj : j < i),
            (aProducts.get ⟨j, Nat.lt_trans hj hi⟩).ProductID ≠ sProductId)
        ∧ (Edit.onSavePress oProduct aSpecs
              (Edit._onEditMatched sProductId aProducts hasPreviousHash
                sViewModelId).productIndex aProducts).products
            = aProducts.set i { oProduct with Specifications := specsToObject aSpecs }
        ∧ (Edit.onSavePress oProduct aSpecs
              (Edit._onEditMatched sProductId aProducts hasPreviousHash
                sViewModelId).productIndex aProducts).products.length
            = aProducts.length
        ∧ (∀ j, j ≠ i →
            (Edit.onSavePress oProduct aSpecs
                (Edit._onEditMatched sProductId aProducts hasPreviousHash
                  sViewModelId).productIndex aProducts).products[j]?
              = aProducts[j]?) := by
  have hok : ¬(oProduct.Name = "" ∨ oProduct.Price = 0) := not_or.mpr ⟨hname, hprice⟩
  rcases findFirstById_mem aProducts sProductId hmem with ⟨r, hr⟩
  rcases findFirstById_eq_some aProducts sProductId r.1 r.2 hr
    with ⟨hi, hget, hpid, hfirst⟩
  have hmatch : (Edit._onEditMatched sProductId aProducts hasPreviousHash
      sViewModelId).productIndex = some r.1 := by
    rw [Edit._onEditMatched, hr]
  have hsave : (Edit.onSavePress oProduct aSpecs
      (Edit._onEditMatched sProductId aProducts hasPreviousHash
        sViewModelId).productIndex aProducts).products
      = aProducts.set r.1 { oProduct with Specifications := specsToObject aSpecs } := by
    rw [hmatch, Edit.onSavePress, if_neg hok]
  refine ⟨r.1, hi, hmatch, ?_, hfirst, hsave, ?_, ?_⟩
  · rw [hget]; exact hpid
  · rw [hsave, List.length_set]
  · intro j hj
    rw [hsave, List.getElem?_set_ne (Ne.symm hj)]

/-- Witness for `edit_save_replaces_element_at_index`: editing the record
with ID "7" in the sample array. -/
theorem edit_save_replaces_element_at_index_witness :
    ∃ i, ∃ hi : i < [sampleProduct1, sampleProduct2].length,
      (Edit._onEditMatched "7" [sampleProduct1, sampleProduct2] true
          "7").productIndex = some i
        ∧ ([sampleProduct1, sampleProduct2].get ⟨i, hi⟩).ProductID = "7"
        ∧ (∀ j (hj : j < i),
            ([sampleProduct1, sampleProduct2].get
              ⟨j, Nat.lt_trans hj hi⟩).ProductID ≠ "7")
        ∧ (Edit.onSavePress sampleForm []
              (Edit._onEditMatched "7" [sampleProduct1, sampleProduct2] true
                "7").productIndex [sampleProduct1, sampleProduct2]).products
            = [sampleProduct1, sampleProduct2].set i
                { sampleForm with Specifications := specsToObject [] }
        ∧ (Edit.onSavePress sampleForm []
              (Edit._onEditMatched "7" [sampleProduct1, sampleProduct2] true
                "7").productIndex [sampleProduct1, sampleProduct2]).products.length
            = [sampleProduct1, sampleProduct2].length
        ∧ (∀ j, j ≠ i →
            (Edit.onSavePress sampleForm []
                (Edit._onEditMatched "7" [sampleProduct1, sampleProduct2] true
                  "7").productIndex [sampleProduct1, sampleProduct2]).products[j]?
              = [sampleProduct1, sampleProduct2][j]?) :=
  edit_save_replaces_element_at_index "7" [sampleProduct1, sampleProduct2]
    true "7" sampleForm [] (by decide) (by decide) (by decide)

/-- C3: `ProductID` uniqueness is an invariant of Create, Edit and Delete.
For the Edit flow, the hypothesis `oProduct.ProductID = sProductId` is
modelled from the spec: the edit view (`webapp/view/Edit.view.xml`, not part
of the embedded sources) binds the form fields of the deep copy loaded by
`_onEditMatched`, and per the spec's invariant that `ProductID` is a unique
key issued only at create time, the form does not alter `ProductID` — so on
save the form's ID is still the routed one. -/
theorem productId_uniqueness_invariant :
    (∀ (oProduct : Product) (aSpecs : List (String × String))
        (aProducts : List Product),
      (productIds aProducts).Nodup →
        (productIds (Create.onSavePress oProduct aSpecs aProducts).products).Nodup)
      ∧ (∀ (sProductId : String) (aProducts : List Product)
            (hasPreviousHash : Bool) (sViewModelId : String)
            (oProduct : Product) (aSpecs : List (String × String)),
          (productIds aProducts).Nodup → oProduct.ProductID = sProductId →
            (productIds (Edit.onSavePress oProduct aSpecs
                (Edit._onEditMatched sProductId aProducts hasPreviousHash
                  sViewModelId).productIndex aProducts).products).Nodup)
      ∧ (∀ (oAction : MessageBoxAction) (sProductId : String)
            (aProducts : List Product),
          (productIds aProducts).Nodup →
            (productIds (Detail.onDeletePress oAction sProductId
                aProducts).products).Nodup) := by
  refine ⟨?_, ?_, ?_⟩
  · intro oProduct aSpecs aProducts hnd
    by_cases hmiss : oProduct.Name = "" ∨ oProduct.Price = 0
    · rw [Create.onSavePress, if_pos hmiss]
      exact hnd
    · have hprod : (Create.onSavePress oProduct aSpecs aProducts).products
          = aProducts ++ [{ oProduct with
              Specifications := specsToObject aSpecs
              ProductID := Create._generateProductId aProducts }] := by
        rw [Create.onSavePress, if_neg hmiss]
      rw [hprod]
      unfold productIds
      rw [List.map_append]
      refine List.nodup_append.mpr ⟨hnd, List.nodup_singleton _, ?_⟩
      intro a ha hb
      have hb2 : a = Create._generateProductId aProducts := by
        simpa using hb
      rw [hb2] at ha
      exact _generateProductId_fresh aProducts ha
  · intro sProductId aProducts hasPreviousHash sViewModelId oProduct aSpecs hnd hID
    by_cases hmiss : oProduct.Name = "" ∨ oProduct.Price = 0
    · rw [Edit.onSavePress, if_pos hmiss]
      exact hnd
    · cases hr : findFirstById aProducts sProductId with
      | none =>
        have hidx : (Edit._onEditMatched sProductId aProducts hasPreviousHash
            sViewModelId).productIndex = none := by
          rw [Edit._onEditMatched, hr]
        rw [hidx, Edit.onSavePress, if_neg hmiss]
        exact hnd
      | some r =>
        have hidx : (Edit._onEditMatched sProductId aProducts hasPreviousHash
            sViewModelId).productIndex = some r.1 := by
          rw [Edit._onEditMatched, hr]
        rw [hidx, Edit.onSavePress, if_neg hmiss]
        show (productIds (aProducts.set r.1
          { oProduct with Specifications := specsToObject aSpecs })).Nodup
        rcases findFirstById_eq_some aProducts sProductId r.1 r.2 hr
          with ⟨hi, hget, hpid, _⟩
        have hids : productIds (aProducts.set r.1
            { oProduct with Specifications := specsToObject aSpecs })
            = productIds aProducts := by
          unfold productIds
          rw [List.map_set]
          apply set_getElem?_self
          have h1 : aProducts[r.1]? = some r.2 := by
            rw [List.getElem?_eq_getElem hi]
            exact congrArg some hget
          rw [List.getElem?_map, h1]
          show some r.2.ProductID = some oProduct.ProductID
          rw [hpid, hID]
        rw [hids]
        exact hnd
  · intro oAction sProductId aProducts hnd
    by_cases hOK : oAction = MessageBoxAction.OK
    · rw [Detail.onDeletePress, if_pos hOK]
      show (productIds (Detail.removeFirstById aProducts sProductId)).Nodup
      exact List.Nodup.sublist
        (List.Sublist.map Product.ProductID
          (removeFirstById_sublist aProducts sProductId)) hnd
    · rw [Detail.onDeletePress, if_neg hOK]
      exact hnd

/-- Witness for `productId_uniqueness_invariant` on the sample array for all
three operations. -/
theorem productId_uniqueness_invariant_witness :
    (productIds (Create.onSavePress sampleForm []
        [sampleProduct1, sampleProduct2]).products).Nodup
      ∧ (productIds (Edit.onSavePress { sampleForm with ProductID := "7" } []
          (Edit._onEditMatched "7" [sampleProduct1, sampleProduct2] true
            "7").productIndex [sampleProduct1, sampleProduct2]).products).Nodup
      ∧ (productIds (Detail.onDeletePress MessageBoxAction.OK "7"
          [sampleProduct1, sampleProduct2]).products).Nodup :=
  ⟨productId_uniqueness_invariant.1 sampleForm []
      [sampleProduct1, sampleProduct2] (by decide),
   productId_uniqueness_invariant.2.1 "7" [sampleProduct1, sampleProduct2]
      true "7" { sampleForm with ProductID := "7" } [] (by decide) rfl,
   productId_uniqueness_invariant.2.2 MessageBoxAction.OK "7"
      [sampleProduct1, sampleProduct2] (by decide)⟩

/-- C1 counterexample: on the non-empty array `[negIdProduct]`, whose single
`ProductID` "-5" parses as an integer, a valid Create save assigns the new
record the ID "1" (the code floors the running maximum at 0), not
"one greater than the current maximum numeric ID in the array", which would
be "-4". -/
theorem create_next_id_claim_counterexample :
    ([negIdProduct] ≠ ([] : List Product))
      ∧ (∀ p ∈ [negIdProduct], (parseIntJS p.ProductID).isSome = true)
      ∧ sampleForm.Name ≠ ""
      ∧ sampleForm.Price ≠ 0
      ∧ (Create.onSavePress sampleForm [] [negIdProduct]).products.getLast?.map
          Product.ProductID = some "1"
      ∧ intToString (specMaxNumericId [negIdProduct] + 1) = "-4"
      ∧ ¬((Create.onSavePress sampleForm [] [negIdProduct]).products.getLast?.map
          Product.ProductID
            = some (intToString (specMaxNumericId [negIdProduct] + 1))) := by
  decide

/-- C1 (amended): a valid Create save on a non-empty array whose
`ProductID` values all parse as integers appends exactly one record, whose
`ProductID` is one greater than the maximum of 0 and the current maximum
numeric ID in the array; all previously present records are still present
at their indices. -/
theorem create_appends_product_with_next_id
    (oProduct : Product) (aSpecs : List (String × String))
    (aProducts : List Product)
    (hne : aProducts ≠ [])
    (hparse : ∀ p ∈ aProducts, (parseIntJS p.ProductID).isSome = true)
    (hname : oProduct.Name ≠ "") (hprice : oProduct.Price ≠ 0) :
    (Create.onSavePress oProduct aSpecs aProducts).products
        = aProducts ++ [{ oProduct with
            Specifications := specsToObject aSpecs
            ProductID := intToString (max 0 (specMaxNumericId aProducts) + 1) }]
      ∧ (Create.onSavePress oProduct aSpecs aProducts).products.length
          = aProducts.length + 1
      ∧ (∀ j, j < aProducts.length →
          (Create.onSavePress oProduct aSpecs aProducts).products[j]?
            = aProducts[j]?) := by
  have hok : ¬(oProduct.Name = "" ∨ oProduct.Price = 0) := not_or.mpr ⟨hname, hprice⟩
  have hgen : Create._generateProductId aProducts
      = intToString (max 0 (specMaxNumericId aProducts) + 1) := by
    rw [Create._generateProductId, _maxExistingId_eq_spec]
  have hprod : (Create.onSavePress oProduct aSpecs aProducts).products
      = aProducts ++ [{ oProduct with
          Specifications := specsToObject aSpecs
          ProductID := Create._generateProductId aProducts }] := by
    rw [Create.onSavePress, if_neg hok]
  rw [hgen] at hprod
  refine ⟨hprod, ?_, ?_⟩
  · rw [hprod]
    simp
  · intro j hj
    rw [hprod, List.getElem?_append_left hj]

/-- Witness for `create_appends_product_with_next_id` on the sample array
(IDs "7" and "3" parse; the new record gets ID "8"). -/
theorem create_appends_product_with_next_id_witness :
    ([sampleProduct1, sampleProduct2] ≠ ([] : List Product))
      ∧ (∀ p ∈ [sampleProduct1, sampleProduct2], (parseIntJS p.ProductID).isSome = true)
      ∧ sampleForm.Name ≠ ""
      ∧ sampleForm.Price ≠ 0
      ∧ (Create.onSavePress sampleForm [("Color", "Red")]
            [sampleProduct1, sampleProduct2]).products
          = [sampleProduct1, sampleProduct2] ++ [{ sampleForm with
              Specifications := specsToObject [("Color", "Red")]
              ProductID := intToString
                (max 0 (specMaxNumericId [sampleProduct1, sampleProduct2]) + 1) }] :=
  ⟨by decide, by decide, by decide, by decide,
   (create_appends_product_with_next_id sampleForm [("Color", "Red")]
      [sampleProduct1, sampleProduct2] (by decide) (by decide) (by decide)
      (by decide)).1⟩

/-- C9: `formatPrice` returns the empty string for a falsy price (including
the numeric price 0) and otherwise the price formatted with exactly two
decimal places; the currency argument never affects the result. -/
theorem formatPrice_spec (price : Int) (currency1 currency2 : String) :
    (price = 0 → formatPrice price currency1 = "")
      ∧ (price ≠ 0 → ∃ w f : String,
          formatPrice price currency1 = w ++ "." ++ f
            ∧ f.length = 2
            ∧ (∀ c ∈ f.data, c.isDigit = true))
      ∧ formatPrice price currency1 = formatPrice price currency2 := by
  refine ⟨fun h0 => by rw [formatPrice, if_pos h0], fun hne => ?_, rfl⟩
  rw [formatPrice, if_neg hne]
  by_cases hr : price.natAbs % 100 < 10
  · refine ⟨(if price < 0 then "-" else "") ++ natRepr (price.natAbs / 100),
      "0" ++ natRepr (price.natAbs % 100), ?_, ?_, ?_⟩
    · rw [if_pos hr]
    · show (("0" ++ natRepr (price.natAbs % 100)).data).length = 2
      show (("0").data ++ (natRepr (price.natAbs % 100)).data).length = 2
      rw [List.length_append, natRepr_data, natToDigits, dif_pos hr]
      rfl
    · intro c hc
      have hc2 : c ∈ ("0").data ++ (natRepr (price.natAbs % 100)).data := hc
      rcases List.mem_append.mp hc2 with h1 | h1
      · simp only [List.mem_singleton] at h1
        rw [h1]
        decide
      · exact natRepr_all_digits _ c h1
  · refine ⟨(if price < 0 then "-" else "") ++ natRepr (price.natAbs / 100),
      natRepr (price.natAbs % 100), ?_, ?_, ?_⟩
    · rw [if_neg hr]
    · exact natRepr_length_lt100 _ (by omega) (Nat.mod_lt _ (by omega))
    · exact natRepr_all_digits _

/-- Witness for `formatPrice_spec` at prices 0 and 250 cents. -/
theorem formatPrice_spec_witness :
    formatPrice 0 "USD" = ""
      ∧ (∃ w f : String, formatPrice 250 "USD" = w ++ "." ++ f
          ∧ f.length = 2
          ∧ (∀ c ∈ f.data, c.isDigit = true))
      ∧ formatPrice 250 "USD" = formatPrice 250 "EUR" :=
  ⟨(formatPrice_spec 0 "USD" "EUR").1 rfl,
   (formatPrice_spec 250 "USD" "EUR").2.1 (by decide),
   (formatPrice_spec 250 "USD" "EUR").2.2⟩

/-- C10: `_generateProductId` returns "1" on the empty array, and in general
the string representation of 1 plus the maximum of 0 and the integer parses
of the `ProductID` values; a record whose `ProductID` parses to no integer
(`NaN`) or to a non-positive one is ignored. -/
theorem generateProductId_spec :
    Create._generateProductId [] = "1"
      ∧ (∀ aProducts : List Product,
          Create._generateProductId aProducts
            = intToString
                (1 + (aProducts.filterMap
                    (fun p => parseIntJS p.ProductID)).foldl max 0))
      ∧ (∀ (p : Product) (aProducts : List Product),
          (∀ v, parseIntJS p.ProductID = some v → v ≤ 0) →
            Create._generateProductId (p :: aProducts)
              = Create._generateProductId aProducts) := by
  refine ⟨by decide, fun aProducts => ?_, fun p aProducts h => ?_⟩
  · rw [Create._generateProductId, _maxExistingId_eq_foldl,
      Int.add_comm ((aProducts.filterMap (fun p => parseIntJS p.ProductID)).foldl max 0) 1]
  · rw [Create._generateProductId, Create._generateProductId]
    congr 2
    unfold Create._maxExistingId
    rw [List.foldl_cons]
    congr 1
    cases hp : parseIntJS p.ProductID with
    | none => rfl
    | some v =>
      show (if v > 0 then v else 0) = 0
      rw [if_neg (not_lt.mpr (h v hp))]

/-- Witness for `generateProductId_spec`: a record with negative numeric ID
"-5" does not change the generated ID. -/
theorem generateProductId_spec_witness :
    Create._generateProductId [negIdProduct] = Create._generateProductId [] :=
  generateProductId_spec.2.2 negIdProduct []
    (fun v hv => by
      have h5 : parseIntJS negIdProduct.ProductID = some (-5) := by decide
      rw [h5] at hv
      have hv5 : v = -5 := (Option.some.inj hv).symm
      omega)
